import Mathlib

/-!
Verification of the resilient adaptive dispatch engine of the
next-gen-resize-observer repository.

The development shallowly embeds the JavaScript classes that the checked
claims are about:

* `CircuitBreaker`  — src/stability/CircuitBreaker.js
* `SmartCircuitBreaker`, `WeakRefCache`, `UltraStableResizeSystemV2`
  — src/core/UltraStableResizeSystem.js
* `ErrorRecoverySystem` — the error recovery module
* `PerformanceOptimizer` — src/performance/PerformanceOptimizer.js

Conventions: `Date.now()` timestamps are embedded as `Int` and passed
explicitly as a `now` argument; `performance.now()` durations and the
floating-point throttle arithmetic are embedded as `ℚ`; `Math.random()`
draws are passed explicitly as a `ℚ` argument; a JavaScript `Map` is
embedded as an association list in insertion order; an async operation is
embedded as its terminal outcome (resolve value, rejection, or — for the
smart breaker — cancellation, meaning the awaited promise never settles,
so the code after the `await` never runs).
-/

/-! ## CircuitBreaker (src/stability/CircuitBreaker.js) -/

inductive BreakerTag where
  | CLOSED
  | OPEN
  | HALF_OPEN
deriving DecidableEq, Repr

structure CBConfig where
  failureThreshold : Nat
  recoveryTimeout : Int
  monitoringWindow : Int
  successThreshold : Nat
deriving DecidableEq, Repr

structure FailureRecord where
  message : String
  timestamp : Int
deriving DecidableEq, Repr

structure CBState where
  state : BreakerTag
  failureCount : Nat
  successCount : Nat
  lastFailureTime : Option Int
  failureHistory : List FailureRecord
deriving DecidableEq, Repr

/-- Outcome of the awaited `operation()` inside `execute`. -/
inductive CBOutcome where
  | succeeds
  | fails (msg : String)

/-- Result of one `execute` call: the updated breaker plus whether the
operation was invoked and whether the fallback value was returned. -/
structure CBExecOut where
  newState : CBState
  invoked : Bool
  usedFallback : Bool

namespace CircuitBreaker

/-- Constructor state: CLOSED, zero counters, empty history. -/
def initial : CBState :=
  { state := .CLOSED, failureCount := 0, successCount := 0,
    lastFailureTime := none, failureHistory := [] }

/-- `cleanFailureHistory`: drop failures at or before `now - monitoringWindow`. -/
def cleanFailureHistory (cfg : CBConfig) (now : Int) (s : CBState) : CBState :=
  { s with failureHistory :=
      s.failureHistory.filter (fun f => decide (now - cfg.monitoringWindow < f.timestamp)) }

/-- `shouldOpenCircuit`: `failureCount >= failureThreshold`. -/
def shouldOpenCircuit (cfg : CBConfig) (s : CBState) : Bool :=
  decide (cfg.failureThreshold ≤ s.failureCount)

/-- `openCircuit`: set state OPEN and zero the success counter. -/
def openCircuit (s : CBState) : CBState :=
  { s with state := .OPEN, successCount := 0 }

/-- `reset`: back to a healthy CLOSED state. -/
def reset (s : CBState) : CBState :=
  { s with state := .CLOSED, failureCount := 0, successCount := 0, failureHistory := [] }

/-- `onFailure`: bump the counter, stamp the failure, prune the window,
then open the circuit if the threshold is reached. -/
def onFailure (cfg : CBConfig) (now : Int) (msg : String) (s : CBState) : CBState :=
  let s2 := cleanFailureHistory cfg now
    { s with failureCount := s.failureCount + 1,
             lastFailureTime := some now,
             failureHistory := s.failureHistory ++ [⟨msg, now⟩] }
  if shouldOpenCircuit cfg s2 then openCircuit s2 else s2

/-- `onSuccess`: bump the success counter; while HALF_OPEN, close once
`successThreshold` successes accumulate. -/
def onSuccess (cfg : CBConfig) (s : CBState) : CBState :=
  let s1 := { s with successCount := s.successCount + 1 }
  if s1.state = .HALF_OPEN then
    if cfg.successThreshold ≤ s1.successCount then reset s1 else s1
  else s1

/-- `shouldAttemptRecovery`: `now - lastFailureTime >= recoveryTimeout`
(a null `lastFailureTime` coerces to 0 in the source). -/
def shouldAttemptRecovery (cfg : CBConfig) (now : Int) (s : CBState) : Bool :=
  decide (cfg.recoveryTimeout ≤ now - (s.lastFailureTime.getD 0))

/-- The try/await/catch body of `execute`: dispatch on the operation outcome. -/
def tryOperation (cfg : CBConfig) (now : Int) (out : CBOutcome) (s : CBState) : CBExecOut :=
  match out with
  | .succeeds => { newState := onSuccess cfg s, invoked := true, usedFallback := false }
  | .fails m => { newState := onFailure cfg now m s, invoked := true, usedFallback := true }

/-- `execute`: short-circuit to the fallback while OPEN and inside the
recovery timeout, otherwise (possibly via HALF_OPEN) run the operation. -/
def execute (cfg : CBConfig) (now : Int) (out : CBOutcome) (s : CBState) : CBExecOut :=
  if s.state = .OPEN then
    if shouldAttemptRecovery cfg now s then
      tryOperation cfg now out { s with state := .HALF_OPEN }
    else
      { newState := s, invoked := false, usedFallback := true }
  else
    tryOperation cfg now out s

/-- A sequence of `execute` calls whose operations all fail, at the given
call times. -/
def failMany (cfg : CBConfig) (msg : String) (ts : List Int) (s : CBState) : CBState :=
  ts.foldl (fun acc t => (execute cfg t (.fails msg) acc).newState) s

/-- Breaker states reachable from the constructor state through `execute`. -/
inductive Reaches (cfg : CBConfig) : CBState → Prop where
  | start : Reaches cfg initial
  | step (s : CBState) (now : Int) (out : CBOutcome) :
      Reaches cfg s → Reaches cfg (execute cfg now out s).newState

end CircuitBreaker

/-! ## JavaScript `Map` embedding

A `Map` is an association list in insertion order: `set` on a present key
overwrites in place (order preserved), otherwise appends; `delete` removes
the entry; iteration order is the list order. -/

def jsMapSet {K V : Type} [DecidableEq K] (l : List (K × V)) (k : K) (v : V) : List (K × V) :=
  if l.any (fun p => decide (p.1 = k)) then
    l.map (fun p => if p.1 = k then (k, v) else p)
  else l ++ [(k, v)]

def jsMapDelete {K V : Type} [DecidableEq K] (l : List (K × V)) (k : K) : List (K × V) :=
  l.filter (fun p => decide (¬ p.1 = k))

def jsMapLookup {K V : Type} [DecidableEq K] (l : List (K × V)) (k : K) : Option V :=
  (l.find? (fun p => decide (p.1 = k))).map Prod.snd

/-! ## SmartCircuitBreaker (src/core/UltraStableResizeSystem.js) -/

structure SCBConfig where
  failureThreshold : Nat
  recoveryTimeout : Int
  monitoringWindow : Int
  successThreshold : Nat
  adaptiveLearning : Bool
deriving DecidableEq, Repr

/-- One entry of `this.failures`. -/
structure SFailure where
  timestamp : Int
  message : String
  duration : ℚ
  type : String
deriving DecidableEq, Repr

/-- One entry of `this.successes`. -/
structure SSuccess where
  timestamp : Int
  duration : ℚ
deriving DecidableEq, Repr

/-- One value of `this.errorPatterns` (recoveryStrategies stays empty). -/
structure ErrorPattern where
  count : Nat
  avgDuration : ℚ
deriving DecidableEq, Repr

structure SCBState where
  state : BreakerTag
  failures : List SFailure
  successes : List SSuccess
  errorPatterns : List (String × ErrorPattern)
deriving DecidableEq, Repr

/-- Terminal outcome of the awaited race inside `SmartCircuitBreaker.execute`:
resolution, rejection (an operation error or the 5000 ms timeout rejection),
or cancellation — the promise never settles, so the code after the `await`
never runs. -/
inductive SOutcome where
  | succeeds (duration : ℚ)
  | fails (msg ty : String) (duration : ℚ)
  | cancelled

structure SExecOut where
  newState : SCBState
  invoked : Bool
  recordedFailure : Bool
  recordedSuccess : Bool

namespace SmartCircuitBreaker

def initial : SCBState := { state := .CLOSED, failures := [], successes := [], errorPatterns := [] }

/-- `cleanupOldRecords`: drop failures and successes at or before
`now - monitoringWindow`. -/
def cleanupOldRecords (cfg : SCBConfig) (now : Int) (s : SCBState) : SCBState :=
  { s with
    failures := s.failures.filter (fun f => decide (now - cfg.monitoringWindow < f.timestamp)),
    successes := s.successes.filter (fun r => decide (now - cfg.monitoringWindow < r.timestamp)) }

/-- `shouldOpenCircuit`: count the failures inside the monitoring window. -/
def shouldOpenCircuit (cfg : SCBConfig) (now : Int) (s : SCBState) : Bool :=
  decide (cfg.failureThreshold ≤
    (s.failures.filter (fun f => decide (now - f.timestamp < cfg.monitoringWindow))).length)

/-- `shouldAttemptRecovery`: gate on the timestamp of the last recorded
failure (false when there is none). -/
def shouldAttemptRecovery (cfg : SCBConfig) (now : Int) (s : SCBState) : Bool :=
  match s.failures.getLast? with
  | none => false
  | some f => decide (cfg.recoveryTimeout ≤ now - f.timestamp)

def openCircuit (s : SCBState) : SCBState :=
  { s with state := .OPEN, successes := [] }

/-- `analyzeErrorPattern`: update the per-error-type telemetry map. -/
def analyzeErrorPattern (cfg : SCBConfig) (f : SFailure) (s : SCBState) : SCBState :=
  if cfg.adaptiveLearning then
    let p := (jsMapLookup s.errorPatterns f.type).getD ⟨0, 0⟩
    { s with errorPatterns :=
        jsMapSet s.errorPatterns f.type ⟨p.count + 1, (p.avgDuration + f.duration) / 2⟩ }
  else s

/-- `recordFailure`: push the failure, update patterns, prune the window,
then open the circuit iff the in-window failure count reaches the threshold. -/
def recordFailure (cfg : SCBConfig) (now : Int) (msg ty : String) (dur : ℚ)
    (s : SCBState) : SCBState :=
  let f : SFailure := ⟨now, msg, dur, ty⟩
  let s3 := cleanupOldRecords cfg now (analyzeErrorPattern cfg f { s with failures := s.failures ++ [f] })
  if shouldOpenCircuit cfg now s3 then openCircuit s3 else s3

/-- `recordSuccess`: push the success, prune the window, and while
HALF_OPEN close once enough successes remain in the window. -/
def recordSuccess (cfg : SCBConfig) (now : Int) (dur : ℚ) (s : SCBState) : SCBState :=
  let s2 := cleanupOldRecords cfg now { s with successes := s.successes ++ [⟨now, dur⟩] }
  if s2.state = .HALF_OPEN ∧ cfg.successThreshold ≤ s2.successes.length then
    { s2 with state := .CLOSED }
  else s2

/-- The body of `execute` after the OPEN gate: await the race and record
its outcome; a cancelled operation never resumes the body, so neither
record call runs. -/
def runOperation (cfg : SCBConfig) (now : Int) (out : SOutcome) (s : SCBState) : SExecOut :=
  match out with
  | .succeeds d =>
    { newState := recordSuccess cfg now d s, invoked := true,
      recordedFailure := false, recordedSuccess := true }
  | .fails m ty d =>
    { newState := recordFailure cfg now m ty d s, invoked := true,
      recordedFailure := true, recordedSuccess := false }
  | .cancelled =>
    { newState := s, invoked := true, recordedFailure := false, recordedSuccess := false }

/-- `SmartCircuitBreaker.execute`. -/
def execute (cfg : SCBConfig) (now : Int) (out : SOutcome) (s : SCBState) : SExecOut :=
  if s.state = .OPEN then
    if shouldAttemptRecovery cfg now s then
      runOperation cfg now out { s with state := .HALF_OPEN }
    else
      { newState := s, invoked := false, recordedFailure := false, recordedSuccess := false }
  else
    runOperation cfg now out s

end SmartCircuitBreaker

/-! ## ErrorRecoverySystem (error recovery module) -/

structure ERConfig where
  maxRetryAttempts : Nat
  retryDelay : ℚ
  backoffMultiplier : ℚ
  maxBackoffDelay : ℚ
  enableLearning : Bool
deriving DecidableEq, Repr

/-- A thrown JavaScript error: its `message` and `constructor.name`
(the key used to look up a recovery strategy). -/
structure RErr where
  message : String
  ctorName : String
deriving DecidableEq, Repr

/-- Behaviour of one call to a registered recovery strategy: it either
throws, or resolves to `{success, recoveredElements?}`. -/
inductive SRes (Ctx : Type) where
  | throws
  | result (success : Bool) (recoveredElements : Option Ctx)

/-- The `recoveryStrategies` map: strategy behaviour by error-type name. -/
abbrev Strategies (Ctx : Type) := String → Option (Ctx → SRes Ctx)

/-- What `attemptRecovery` hands back to the retry loop. -/
structure RecoveryOut (Ctx : Type) where
  success : Bool
  recoveredElements : Option Ctx

/-- The `gracefulDegradation` return value. -/
structure DegradedResult (Ctx : Type) where
  success : Bool
  mode : String
  error : Option String
  fallbackActive : Bool
  context : Ctx

/-- Return value of `executeWithRecovery`: the operation result or the
degraded outcome. -/
inductive RunResult (V Ctx : Type) where
  | ok (v : V)
  | degraded (d : DegradedResult Ctx)

/-- Observable summary of one `executeWithRecovery` call: the returned
value, how many times the operation was invoked, and the backoff sleeps
performed (in order). -/
structure EWROut (V Ctx : Type) where
  result : RunResult V Ctx
  invocations : Nat
  delays : List ℚ

namespace ErrorRecoverySystem

/-- `calculateBackoffDelay`:
`min(retryDelay * backoffMultiplier ^ (attempt - 1), maxBackoffDelay)`. -/
def calculateBackoffDelay (cfg : ERConfig) (attempt : Nat) : ℚ :=
  min (cfg.retryDelay * cfg.backoffMultiplier ^ (attempt - 1)) cfg.maxBackoffDelay

/-- `attemptRecovery`: look up the strategy keyed by the constructor
name of the error; no strategy or a throwing strategy yields `success: false`. -/
def attemptRecovery {Ctx : Type} (strats : Strategies Ctx) (e : RErr) (ctx : Ctx) :
    RecoveryOut Ctx :=
  match strats e.ctorName with
  | none => ⟨false, none⟩
  | some strat =>
    match strat ctx with
    | .throws => ⟨false, none⟩
    | .result succ rec => ⟨succ, rec⟩

/-- `gracefulDegradation` (the source reads `error.message`; it is only
reached with a recorded last error whenever `maxRetryAttempts ≥ 1`). -/
def gracefulDegradation {Ctx : Type} (e : Option RErr) (ctx : Ctx) : DegradedResult Ctx :=
  { success := false, mode := "degraded", error := e.map RErr.message,
    fallbackActive := true, context := ctx }

/-- The `while (attempt < maxRetryAttempts)` loop of `executeWithRecovery`.
`fuel` is `maxRetryAttempts - attempt`; `inv` counts operation invocations
so far; `op inv` is the outcome of the next invocation. After a failure
the inner `attempt < maxRetryAttempts` check is `0 < fuel`; a successful
recovery sleeps `calculateBackoffDelay (attempt + 1)` and carries any
recovered elements into the context; a failed recovery breaks the loop. -/
def executeWithRecoveryAux {V Ctx : Type} (cfg : ERConfig) (strats : Strategies Ctx)
    (op : Nat → Except RErr V) :
    Nat → Nat → Nat → Option RErr → List ℚ → Ctx → EWROut V Ctx
  | 0, _, inv, lastErr, delays, ctx =>
    ⟨.degraded (gracefulDegradation lastErr ctx), inv, delays⟩
  | fuel + 1, attempt, inv, _, delays, ctx =>
    match op inv with
    | .ok v => ⟨.ok v, inv + 1, delays⟩
    | .error e =>
      if 0 < fuel then
        let r := attemptRecovery strats e ctx
        if r.success then
          executeWithRecoveryAux cfg strats op fuel (attempt + 1) (inv + 1) (some e)
            (delays ++ [calculateBackoffDelay cfg (attempt + 1)])
            (r.recoveredElements.getD ctx)
        else
          ⟨.degraded (gracefulDegradation (some e) ctx), inv + 1, delays⟩
      else
        ⟨.degraded (gracefulDegradation (some e) ctx), inv + 1, delays⟩

/-- `executeWithRecovery(operation, context)`. -/
def executeWithRecovery {V Ctx : Type} (cfg : ERConfig) (strats : Strategies Ctx)
    (op : Nat → Except RErr V) (ctx : Ctx) : EWROut V Ctx :=
  executeWithRecoveryAux cfg strats op cfg.maxRetryAttempts 0 0 none [] ctx

/-- `registerDefaultStrategies`: the five pre-registered strategies; their
browser-side bodies are out of scope and each resolves `{success: true}`
(the recovered-elements payload of the DOM strategy is abstracted away). -/
def defaultStrategies (Ctx : Type) : Strategies Ctx := fun name =>
  if name = "MemoryError" then some (fun _ => .result true none)
  else if name = "TypeError" then some (fun _ => .result true none)
  else if name = "ReferenceError" then some (fun _ => .result true none)
  else if name = "DOMError" then some (fun _ => .result true none)
  else if name = "NetworkError" then some (fun _ => .result true none)
  else none

end ErrorRecoverySystem

/-! ## WeakRefCache (src/core/UltraStableResizeSystem.js)

Entries are pairs in insertion order; the liveness of a value (whether
the `WeakRef` referent is still reachable) is supplied as a predicate where
an operation checks it. Hit/miss counters are not modelled; no claim
mentions them. -/

namespace WeakRefCache

/-- `this.keys().next().value`: the first (oldest-inserted) key. -/
def firstKey {K V : Type} (l : List (K × V)) : Option K := l.head?.map Prod.fst

/-- `WeakRefCache.set`: evict the oldest entry whenever the current size
has reached `maxSize` (even when the key is already present), then store. -/
def set {K V : Type} [DecidableEq K] (maxSize : Nat) (l : List (K × V)) (k : K) (v : V) :
    List (K × V) :=
  let l1 :=
    if maxSize ≤ l.length then
      match firstKey l with
      | some fk => jsMapDelete l fk
      | none => l
    else l
  jsMapSet l1 k v

/-- `WeakRefCache.get`: a dead referent deletes the entry (and counts as
a miss); the map itself is otherwise unchanged. -/
def get {K V : Type} [DecidableEq K] (l : List (K × V)) (k : K) (alive : V → Bool) :
    List (K × V) :=
  match l.find? (fun p => decide (p.1 = k)) with
  | none => l
  | some p => if alive p.2 then l else jsMapDelete l k

/-- `WeakRefCache.cleanup`: drop every entry whose referent is gone. -/
def cleanup {K V : Type} (l : List (K × V)) (alive : V → Bool) : List (K × V) :=
  l.filter (fun p => alive p.2)

/-- One cache operation, for stating the capacity invariant over arbitrary
operation sequences. -/
inductive CacheOp (K V : Type) where
  | set (k : K) (v : V)
  | delete (k : K)
  | get (k : K) (alive : V → Bool)
  | cleanup (alive : V → Bool)

def applyOp {K V : Type} [DecidableEq K] (maxSize : Nat) (l : List (K × V)) :
    CacheOp K V → List (K × V)
  | .set k v => set maxSize l k v
  | .delete k => jsMapDelete l k
  | .get k alive => get l k alive
  | .cleanup alive => cleanup l alive

def applyOps {K V : Type} [DecidableEq K] (maxSize : Nat) (ops : List (CacheOp K V)) :
    List (K × V) :=
  ops.foldl (applyOp maxSize) []

end WeakRefCache

/-! ## UltraStableResizeSystemV2 processing strategies and throttle -/

/-- Which processing backend produced a result. -/
inductive Method where
  | gpu
  | worker
  | cpu
deriving DecidableEq, Repr

/-- The `{success, method, data, element}` result shape of the
`processWith*` methods (the `element` field is carried inside `data`). -/
structure ProcResult (D : Type) where
  success : Bool
  method : Method
  data : D
deriving DecidableEq, Repr

namespace UltraStableResizeSystemV2

/-- `processWithCPU`: always succeeds with the CPU-computed payload. -/
def processWithCPU {D : Type} (cpuData : D) : ProcResult D :=
  { success := true, method := .cpu, data := cpuData }

/-- `processWithGPU`: `gpuGeometries` is `gpuProcessor.processGeometry([element])`
(null when GPU processing is unsupported or failed); on null it falls back
to `processWithCPU`. -/
def processWithGPU {D : Type} (gpuGeometries : Option D) (cpuData : D) : ProcResult D :=
  match gpuGeometries with
  | some g => { success := true, method := .gpu, data := g }
  | none => processWithCPU cpuData

/-- `processWithWorker`: `workerOutcome` is the settled worker promise
(rejection carries the error message, e.g. a worker timeout); on rejection
it falls back to `processWithCPU`. -/
def processWithWorker {D : Type} (workerOutcome : Except String D) (cpuData : D) :
    ProcResult D :=
  match workerOutcome with
  | .ok d => { success := true, method := .worker, data := d }
  | .error _ => processWithCPU cpuData

/-- `shouldProcessResize`: `Math.random() > this.config.throttleRate`,
with the draw `r` passed explicitly. -/
def shouldProcessResize (throttleRate r : ℚ) : Bool :=
  decide (throttleRate < r)

end UltraStableResizeSystemV2

/-! ## PerformanceOptimizer (src/performance/PerformanceOptimizer.js) -/

structure POConfig where
  throttleRate : ℚ
  performanceBudget : ℚ
  adaptiveThrottling : Bool
  visibilityOptimization : Bool
  gpuAcceleration : Bool
  memoryOptimization : Bool
deriving DecidableEq, Repr

structure FrameMonitor where
  lastFrameTime : ℚ
  frameCount : Nat
  fps : ℚ
deriving DecidableEq, Repr

structure POState where
  frameMonitor : FrameMonitor
  skippedFrames : Nat
  performanceHistory : List ℚ
  adaptiveMultiplier : ℚ
deriving DecidableEq, Repr

namespace PerformanceOptimizer

/-- `calculateAdaptiveThrottling`: nudge the rate from the last-10-sample
average, then scale by the device multiplier, clamped at 0.99. -/
def calculateAdaptiveThrottling (cfg : POConfig) (st : POState) : ℚ :=
  let adaptiveRate := cfg.throttleRate
  let adaptiveRate :=
    if 10 < st.performanceHistory.length then
      let recentAverage :=
        ((st.performanceHistory.drop (st.performanceHistory.length - 10)).foldl (· + ·) 0) / 10
      if cfg.performanceBudget * (8 / 10) < recentAverage then
        min (99 / 100) (adaptiveRate + 1 / 100)
      else if recentAverage < cfg.performanceBudget * (3 / 10) then
        max (9 / 10) (adaptiveRate - 5 / 1000)
      else adaptiveRate
    else adaptiveRate
  min (99 / 100) (adaptiveRate * st.adaptiveMultiplier)

/-- `shouldProcessFrame` with the clock value `now` and the random draw `r`
passed explicitly. The frame is skipped when `r > 1 - effectiveThrottleRate`.
(When `frameTime` is 0 the source fps update divides by zero and stores
`Infinity`; here it stores 0 — the fps field feeds no decision.) -/
def shouldProcessFrame (cfg : POConfig) (st : POState) (now r : ℚ) : POState × Bool :=
  let frameTime := now - st.frameMonitor.lastFrameTime
  let fm1 : FrameMonitor := { st.frameMonitor with frameCount := st.frameMonitor.frameCount + 1 }
  let fm2 : FrameMonitor :=
    if fm1.frameCount % 60 = 0 then { fm1 with fps := 1000 / (frameTime / 60) } else fm1
  let st1 : POState := { st with frameMonitor := fm2 }
  let effectiveThrottleRate :=
    if cfg.adaptiveThrottling then calculateAdaptiveThrottling cfg st1 else cfg.throttleRate
  if 1 - effectiveThrottleRate < r then
    ({ st1 with skippedFrames := st1.skippedFrames + 1 }, false)
  else
    ({ st1 with frameMonitor := { fm2 with lastFrameTime := now } }, true)

end PerformanceOptimizer

/-! ## Theorems -/

namespace CircuitBreaker

theorem onFailure_failureCount (cfg : CBConfig) (now : Int) (msg : String) (s : CBState) :
    (onFailure cfg now msg s).failureCount = s.failureCount + 1 := by
  unfold onFailure cleanFailureHistory openCircuit
  dsimp only
  split <;> rfl

theorem onFailure_lastFailureTime (cfg : CBConfig) (now : Int) (msg : String) (s : CBState) :
    (onFailure cfg now msg s).lastFailureTime = some now := by
  unfold onFailure cleanFailureHistory openCircuit
  dsimp only
  split <;> rfl

theorem onFailure_state_open (cfg : CBConfig) (now : Int) (msg : String) (s : CBState)
    (h : cfg.failureThreshold ≤ s.failureCount + 1) :
    (onFailure cfg now msg s).state = .OPEN := by
  unfold onFailure cleanFailureHistory openCircuit shouldOpenCircuit
  dsimp only
  simp only [decide_eq_true_eq]
  split
  · rfl
  · omega

theorem onFailure_state_keep (cfg : CBConfig) (now : Int) (msg : String) (s : CBState)
    (h : ¬ cfg.failureThreshold ≤ s.failureCount + 1) :
    (onFailure cfg now msg s).state = s.state := by
  unfold onFailure cleanFailureHistory openCircuit shouldOpenCircuit
  dsimp only
  simp only [decide_eq_true_eq]
  split
  · omega
  · rfl

theorem onSuccess_cases (cfg : CBConfig) (s : CBState) :
    (onSuccess cfg s).state = .CLOSED ∨
    ((onSuccess cfg s).state = s.state ∧
      (onSuccess cfg s).failureCount = s.failureCount) := by
  unfold onSuccess reset
  dsimp only
  split
  · split
    · exact Or.inl rfl
    · exact Or.inr ⟨rfl, rfl⟩
  · exact Or.inr ⟨rfl, rfl⟩

theorem execute_fail_open (cfg : CBConfig) (now : Int) (msg : String) (s : CBState)
    (hst : s.state = .OPEN) (hc : cfg.failureThreshold ≤ s.failureCount) :
    (execute cfg now (.fails msg) s).newState.state = .OPEN ∧
      cfg.failureThreshold ≤ (execute cfg now (.fails msg) s).newState.failureCount := by
  unfold execute tryOperation
  rw [if_pos hst]
  split
  · constructor
    · exact onFailure_state_open cfg now msg _ (by simpa using Nat.le_succ_of_le hc)
    · rw [onFailure_failureCount]
      simpa using Nat.le_succ_of_le hc
  · exact ⟨hst, hc⟩

theorem failMany_cons (cfg : CBConfig) (msg : String) (t : Int) (ts : List Int) (s : CBState) :
    failMany cfg msg (t :: ts) s =
      failMany cfg msg ts (execute cfg t (.fails msg) s).newState := rfl

theorem failMany_open (cfg : CBConfig) (msg : String) (ts : List Int) (s : CBState)
    (hst : s.state = .OPEN) (hc : cfg.failureThreshold ≤ s.failureCount) :
    (failMany cfg msg ts s).state = .OPEN ∧
      cfg.failureThreshold ≤ (failMany cfg msg ts s).failureCount := by
  induction ts generalizing s with
  | nil => exact ⟨hst, hc⟩
  | cons t ts ih =>
    rw [failMany_cons]
    obtain ⟨h1, h2⟩ := execute_fail_open cfg t msg s hst hc
    exact ih _ h1 h2

theorem failMany_closed (cfg : CBConfig) (msg : String) (ts : List Int) (s : CBState)
    (hst : s.state = .CLOSED) (hc : s.failureCount < cfg.failureThreshold) :
    ((failMany cfg msg ts s).state = .OPEN ∧
      cfg.failureThreshold ≤ (failMany cfg msg ts s).failureCount) ∨
    ((failMany cfg msg ts s).state = .CLOSED ∧
      (failMany cfg msg ts s).failureCount = s.failureCount + ts.length ∧
      s.failureCount + ts.length < cfg.failureThreshold) := by
  induction ts generalizing s with
  | nil => exact Or.inr ⟨hst, rfl, hc⟩
  | cons t ts ih =>
    rw [failMany_cons]
    have hno : ¬ s.state = BreakerTag.OPEN := by rw [hst]; exact fun h => nomatch h
    have hexec : (execute cfg t (.fails msg) s).newState = onFailure cfg t msg s := by
      unfold execute tryOperation
      rw [if_neg hno]
    rw [hexec]
    by_cases hop : cfg.failureThreshold ≤ s.failureCount + 1
    · have h1 := onFailure_state_open cfg t msg s hop
      have h2 := onFailure_failureCount cfg t msg s
      exact Or.inl (failMany_open cfg msg ts _ h1 (by omega))
    · have h1 : (onFailure cfg t msg s).state = .CLOSED := by
        rw [onFailure_state_keep cfg t msg s hop, hst]
      have h2 := onFailure_failureCount cfg t msg s
      rcases ih (onFailure cfg t msg s) h1 (by omega) with h | ⟨ha, hb, hcnt⟩
      · exact Or.inl h
      · exact Or.inr ⟨ha, by rw [hb, h2]; simp; omega, by rw [h2] at hcnt; simp; omega⟩

/-- Any reachable non-CLOSED breaker state carries a failure count that has
reached the failure threshold (the counter is only cleared by `reset`,
which also closes the circuit). -/
theorem reaches_open_count (cfg : CBConfig) (s : CBState) (h : Reaches cfg s) :
    ¬ s.state = .CLOSED → cfg.failureThreshold ≤ s.failureCount := by
  induction h with
  | start => intro hs; exact absurd rfl hs
  | step s now out hr ih =>
    intro hs
    unfold execute at hs ⊢
    by_cases ho : s.state = .OPEN
    · rw [if_pos ho] at hs ⊢
      have hc := ih (by rw [ho]; exact fun h => nomatch h)
      by_cases hb : shouldAttemptRecovery cfg now s = true
      · rw [if_pos hb] at hs ⊢
        cases out with
        | succeeds =>
          unfold tryOperation at hs ⊢
          rcases onSuccess_cases cfg { s with state := .HALF_OPEN } with hcl | ⟨h1, h2⟩
          · exact absurd hcl hs
          · rw [h2]; exact hc
        | fails m =>
          unfold tryOperation
          rw [onFailure_failureCount]
          exact Nat.le_succ_of_le hc
      · rw [if_neg hb] at hs ⊢
        exact hc
    · rw [if_neg ho] at hs ⊢
      cases out with
      | succeeds =>
        unfold tryOperation at hs ⊢
        rcases onSuccess_cases cfg s with hcl | ⟨h1, h2⟩
        · exact absurd hcl hs
        · rw [h2]
          exact ih (by rw [← h1]; exact hs)
      | fails m =>
        unfold tryOperation at hs ⊢
        by_cases hop : cfg.failureThreshold ≤ s.failureCount + 1
        · rw [onFailure_failureCount]; exact hop
        · rw [onFailure_state_keep cfg now m s hop] at hs
          rw [onFailure_failureCount]
          exact Nat.le_succ_of_le (ih hs)

end CircuitBreaker

/-- C1: for every sequence of at least `failureThreshold` failed `execute`
attempts (all failure timestamps within one `monitoringWindow` of each
other) starting from a fresh breaker, the breaker ends in the OPEN state;
and any `execute` call made while `now - lastFailureTime` is still below
`recoveryTimeout` returns the fallback without invoking the operation and
leaves the breaker state untouched (so the same holds for every further
call made before the timeout elapses). -/
theorem C1_opens_and_short_circuits (cfg : CBConfig) (msg : String) (ts : List Int)
    (tnext : Int) (out : CBOutcome)
    (hthr : 1 ≤ cfg.failureThreshold)
    (hlen : cfg.failureThreshold ≤ ts.length)
    (hwin : ∀ a ∈ ts, ∀ b ∈ ts, a - b ≤ cfg.monitoringWindow) :
    (CircuitBreaker.failMany cfg msg ts CircuitBreaker.initial).state = .OPEN ∧
    (tnext - ((CircuitBreaker.failMany cfg msg ts CircuitBreaker.initial).lastFailureTime.getD 0)
        < cfg.recoveryTimeout →
      (CircuitBreaker.execute cfg tnext out
          (CircuitBreaker.failMany cfg msg ts CircuitBreaker.initial)).invoked = false ∧
      (CircuitBreaker.execute cfg tnext out
          (CircuitBreaker.failMany cfg msg ts CircuitBreaker.initial)).usedFallback = true ∧
      (CircuitBreaker.execute cfg tnext out
          (CircuitBreaker.failMany cfg msg ts CircuitBreaker.initial)).newState =
        CircuitBreaker.failMany cfg msg ts CircuitBreaker.initial) := by
  have hstart : CircuitBreaker.initial.state = .CLOSED := rfl
  have hcnt : CircuitBreaker.initial.failureCount < cfg.failureThreshold := hthr
  have hopen : (CircuitBreaker.failMany cfg msg ts CircuitBreaker.initial).state = .OPEN := by
    rcases CircuitBreaker.failMany_closed cfg msg ts CircuitBreaker.initial hstart hcnt with
      ⟨h, _⟩ | ⟨_, _, hlt⟩
    · exact h
    · exfalso
      have : CircuitBreaker.initial.failureCount = 0 := rfl
      omega
  refine ⟨hopen, fun hgate => ?_⟩
  have hrec : CircuitBreaker.shouldAttemptRecovery cfg tnext
      (CircuitBreaker.failMany cfg msg ts CircuitBreaker.initial) = false := by
    unfold CircuitBreaker.shouldAttemptRecovery
    simp only [decide_eq_false_iff_not]
    omega
  unfold CircuitBreaker.execute
  rw [if_pos hopen, if_neg (by rw [hrec]; exact fun h => nomatch h)]
  exact ⟨rfl, rfl, rfl⟩

/-- Witness for C1 at a concrete input: threshold 2, failures at times 0
and 1, next call at time 3 with a recovery timeout of 5. -/
theorem C1_opens_and_short_circuits_witness :
    (1 ≤ (2:Nat) ∧ 2 ≤ [(0:Int), 1].length ∧
      (∀ a ∈ [(0:Int), 1], ∀ b ∈ [(0:Int), 1], a - b ≤ (100:Int))) ∧
    ((CircuitBreaker.failMany ⟨2, 5, 100, 3⟩ "e" [0, 1] CircuitBreaker.initial).state = .OPEN ∧
    ((3:Int) - ((CircuitBreaker.failMany ⟨2, 5, 100, 3⟩ "e" [0, 1]
          CircuitBreaker.initial).lastFailureTime.getD 0) < (5:Int) →
      (CircuitBreaker.execute ⟨2, 5, 100, 3⟩ 3 (.fails "e")
          (CircuitBreaker.failMany ⟨2, 5, 100, 3⟩ "e" [0, 1] CircuitBreaker.initial)).invoked
        = false ∧
      (CircuitBreaker.execute ⟨2, 5, 100, 3⟩ 3 (.fails "e")
          (CircuitBreaker.failMany ⟨2, 5, 100, 3⟩ "e" [0, 1] CircuitBreaker.initial)).usedFallback
        = true ∧
      (CircuitBreaker.execute ⟨2, 5, 100, 3⟩ 3 (.fails "e")
          (CircuitBreaker.failMany ⟨2, 5, 100, 3⟩ "e" [0, 1] CircuitBreaker.initial)).newState =
        CircuitBreaker.failMany ⟨2, 5, 100, 3⟩ "e" [0, 1] CircuitBreaker.initial)) :=
  ⟨⟨by decide, by decide, by decide⟩,
    C1_opens_and_short_circuits ⟨2, 5, 100, 3⟩ "e" [0, 1] 3 (.fails "e")
      (by decide) (by decide) (by decide)⟩

namespace SmartCircuitBreaker

theorem analyzeErrorPattern_failures (cfg : SCBConfig) (f : SFailure) (s : SCBState) :
    (analyzeErrorPattern cfg f s).failures = s.failures := by
  unfold analyzeErrorPattern
  dsimp only
  split <;> rfl

theorem analyzeErrorPattern_state (cfg : SCBConfig) (f : SFailure) (s : SCBState) :
    (analyzeErrorPattern cfg f s).state = s.state := by
  unfold analyzeErrorPattern
  dsimp only
  split <;> rfl

theorem openIf_failures (cfg : SCBConfig) (now : Int) (s : SCBState) :
    (if shouldOpenCircuit cfg now s then openCircuit s else s).failures = s.failures := by
  unfold openCircuit
  split <;> rfl

theorem openIf_state (cfg : SCBConfig) (now : Int) (s : SCBState) :
    (if shouldOpenCircuit cfg now s then openCircuit s else s).state =
      (if shouldOpenCircuit cfg now s then .OPEN else s.state) := by
  unfold openCircuit
  split <;> rfl

/-- After `cleanupOldRecords` the in-window filter of `shouldOpenCircuit`
keeps everything, so the check is just a length comparison. -/
theorem shouldOpenCircuit_cleanup (cfg : SCBConfig) (now : Int) (s : SCBState) :
    shouldOpenCircuit cfg now (cleanupOldRecords cfg now s) =
      decide (cfg.failureThreshold ≤ (cleanupOldRecords cfg now s).failures.length) := by
  unfold shouldOpenCircuit cleanupOldRecords
  dsimp only
  rw [decide_eq_decide]
  have hfe : (s.failures.filter
        (fun f => decide (now - cfg.monitoringWindow < f.timestamp))).filter
        (fun f => decide (now - f.timestamp < cfg.monitoringWindow)) =
      s.failures.filter (fun f => decide (now - cfg.monitoringWindow < f.timestamp)) := by
    rw [List.filter_eq_self]
    intro a ha
    have hq := List.of_mem_filter ha
    simp only [decide_eq_true_eq] at hq ⊢
    omega
  rw [hfe]

theorem recordFailure_failures (cfg : SCBConfig) (now : Int) (m ty : String) (dur : ℚ)
    (s : SCBState) :
    (recordFailure cfg now m ty dur s).failures =
      (s.failures ++ [({ timestamp := now, message := m, duration := dur, type := ty } : SFailure)]).filter
        (fun f => decide (now - cfg.monitoringWindow < f.timestamp)) := by
  unfold recordFailure
  dsimp only
  rw [openIf_failures]
  show (cleanupOldRecords cfg now _).failures = _
  unfold cleanupOldRecords
  dsimp only
  rw [analyzeErrorPattern_failures]

theorem recordFailure_state (cfg : SCBConfig) (now : Int) (m ty : String) (dur : ℚ)
    (s : SCBState) :
    (recordFailure cfg now m ty dur s).state =
      (if cfg.failureThreshold ≤ (recordFailure cfg now m ty dur s).failures.length then
        .OPEN else s.state) := by
  conv_lhs => unfold recordFailure
  rw [recordFailure_failures]
  dsimp only
  rw [openIf_state, shouldOpenCircuit_cleanup]
  have hfa : (cleanupOldRecords cfg now
        (analyzeErrorPattern cfg ({ timestamp := now, message := m, duration := dur, type := ty } : SFailure)
          { s with failures := s.failures ++ [({ timestamp := now, message := m, duration := dur, type := ty } : SFailure)] })).failures =
      (s.failures ++ [({ timestamp := now, message := m, duration := dur, type := ty } : SFailure)]).filter
        (fun f => decide (now - cfg.monitoringWindow < f.timestamp)) := by
    unfold cleanupOldRecords
    dsimp only
    rw [analyzeErrorPattern_failures]
  rw [hfa]
  have hst : (cleanupOldRecords cfg now
        (analyzeErrorPattern cfg ({ timestamp := now, message := m, duration := dur, type := ty } : SFailure)
          { s with failures := s.failures ++ [({ timestamp := now, message := m, duration := dur, type := ty } : SFailure)] })).state = s.state := by
    unfold cleanupOldRecords
    dsimp only
    rw [analyzeErrorPattern_state]
  rw [hst]
  split
  · rename_i h
    rw [if_pos (by simpa using h)]
  · rename_i h
    rw [if_neg (by simpa using h)]

/-- The freshly pushed failure survives the window pruning whenever the
monitoring window is positive, and it is the last record — the one
`shouldAttemptRecovery` will gate on. -/
theorem recordFailure_getLast (cfg : SCBConfig) (now : Int) (m ty : String) (dur : ℚ)
    (s : SCBState) (hw : 0 < cfg.monitoringWindow) :
    (recordFailure cfg now m ty dur s).failures.getLast?.map SFailure.timestamp = some now := by
  rw [recordFailure_failures, List.filter_append]
  have hq : ((([({ timestamp := now, message := m, duration := dur, type := ty } : SFailure)] : List SFailure)).filter
      (fun f => decide (now - cfg.monitoringWindow < f.timestamp))) = [({ timestamp := now, message := m, duration := dur, type := ty } : SFailure)] := by
    simp only [List.filter_cons, List.filter_nil, decide_eq_true_eq]
    rw [if_pos (by omega)]
  rw [hq, List.getLast?_concat]
  rfl

end SmartCircuitBreaker

/-- C4: an execution that terminates by cancellation records neither a
failure nor a success, and leaves the failure history (hence the in-window
failure count checked against `failureThreshold`) exactly as it was. -/
theorem C4_cancellation_not_counted (cfg : SCBConfig) (now : Int) (s : SCBState) :
    (SmartCircuitBreaker.execute cfg now .cancelled s).recordedFailure = false ∧
    (SmartCircuitBreaker.execute cfg now .cancelled s).recordedSuccess = false ∧
    (SmartCircuitBreaker.execute cfg now .cancelled s).newState.failures = s.failures ∧
    (SmartCircuitBreaker.execute cfg now .cancelled s).newState.successes = s.successes := by
  unfold SmartCircuitBreaker.execute SmartCircuitBreaker.runOperation
  split
  · split
    · exact ⟨rfl, rfl, rfl, rfl⟩
    · exact ⟨rfl, rfl, rfl, rfl⟩
  · exact ⟨rfl, rfl, rfl, rfl⟩

/-- C5 (amended): for the stability-module `CircuitBreaker`, a failure in
any reachable HALF_OPEN state always re-opens the circuit and updates
`lastFailureTime` (the timestamp gating OPEN → HALF_OPEN) to that failure.
For `SmartCircuitBreaker`, a HALF_OPEN failure re-opens the circuit iff at
least `failureThreshold` failures (the new one included) remain inside the
monitoring window — otherwise the breaker stays HALF_OPEN — though the
recovery-gate timestamp is still updated to the new failure. -/
theorem C5_halfopen_failure_reopens (cfg : CBConfig) (s : CBState) (now : Int) (msg : String)
    (scfg : SCBConfig) (ss : SCBState) (snow : Int) (m ty : String) (dur : ℚ)
    (h1 : CircuitBreaker.Reaches cfg s) (h2 : s.state = .HALF_OPEN)
    (h3 : ss.state = .HALF_OPEN) (h4 : 0 < scfg.monitoringWindow) :
    (CircuitBreaker.onFailure cfg now msg s).state = .OPEN ∧
    (CircuitBreaker.onFailure cfg now msg s).lastFailureTime = some now ∧
    ((SmartCircuitBreaker.recordFailure scfg snow m ty dur ss).state = .OPEN ↔
      scfg.failureThreshold ≤
        (SmartCircuitBreaker.recordFailure scfg snow m ty dur ss).failures.length) ∧
    (¬ scfg.failureThreshold ≤
        (SmartCircuitBreaker.recordFailure scfg snow m ty dur ss).failures.length →
      (SmartCircuitBreaker.recordFailure scfg snow m ty dur ss).state = .HALF_OPEN) ∧
    (SmartCircuitBreaker.recordFailure scfg snow m ty dur ss).failures.getLast?.map
        SFailure.timestamp = some snow := by
  have hc := CircuitBreaker.reaches_open_count cfg s h1 (by rw [h2]; exact fun h => nomatch h)
  refine ⟨CircuitBreaker.onFailure_state_open cfg now msg s (Nat.le_succ_of_le hc),
    CircuitBreaker.onFailure_lastFailureTime cfg now msg s, ?_, ?_,
    SmartCircuitBreaker.recordFailure_getLast scfg snow m ty dur ss h4⟩
  · rw [SmartCircuitBreaker.recordFailure_state]
    constructor
    · intro ho
      by_contra hno
      rw [if_neg hno, h3] at ho
      exact nomatch ho
    · intro hle
      rw [if_pos hle]
  · intro hno
    rw [SmartCircuitBreaker.recordFailure_state, if_neg hno, h3]

/-- Witness for C5 at concrete inputs. The `CircuitBreaker` half-open
state is built by an actual reachability derivation (one failure opens a
threshold-1 breaker; a probe success after the 5 ms recovery timeout
leaves it HALF_OPEN); the smart breaker is a threshold-2, window-10
instance holding one stale failure. -/
theorem C5_halfopen_failure_reopens_witness :
    (CircuitBreaker.Reaches (⟨1, 5, 100, 3⟩ : CBConfig)
        (CircuitBreaker.execute ⟨1, 5, 100, 3⟩ 5 .succeeds
          (CircuitBreaker.execute ⟨1, 5, 100, 3⟩ 0 (.fails "e")
            CircuitBreaker.initial).newState).newState ∧
      (CircuitBreaker.execute (⟨1, 5, 100, 3⟩ : CBConfig) 5 .succeeds
          (CircuitBreaker.execute ⟨1, 5, 100, 3⟩ 0 (.fails "e")
            CircuitBreaker.initial).newState).newState.state = .HALF_OPEN ∧
      (⟨.HALF_OPEN, [⟨0, "e", 0, "Error"⟩], [], []⟩ : SCBState).state = .HALF_OPEN ∧
      (0:Int) < (10:Int)) ∧
    ((CircuitBreaker.onFailure ⟨1, 5, 100, 3⟩ 6 "e"
        (CircuitBreaker.execute ⟨1, 5, 100, 3⟩ 5 .succeeds
          (CircuitBreaker.execute ⟨1, 5, 100, 3⟩ 0 (.fails "e")
            CircuitBreaker.initial).newState).newState).state = .OPEN ∧
    (CircuitBreaker.onFailure ⟨1, 5, 100, 3⟩ 6 "e"
        (CircuitBreaker.execute ⟨1, 5, 100, 3⟩ 5 .succeeds
          (CircuitBreaker.execute ⟨1, 5, 100, 3⟩ 0 (.fails "e")
            CircuitBreaker.initial).newState).newState).lastFailureTime = some 6 ∧
    ((SmartCircuitBreaker.recordFailure ⟨2, 5, 10, 3, true⟩ 50 "e" "Error" 0
        (⟨.HALF_OPEN, [⟨0, "e", 0, "Error"⟩], [], []⟩ : SCBState)).state = .OPEN ↔
      (2:Nat) ≤
        (SmartCircuitBreaker.recordFailure ⟨2, 5, 10, 3, true⟩ 50 "e" "Error" 0
          (⟨.HALF_OPEN, [⟨0, "e", 0, "Error"⟩], [], []⟩ : SCBState)).failures.length) ∧
    (¬ (2:Nat) ≤
        (SmartCircuitBreaker.recordFailure ⟨2, 5, 10, 3, true⟩ 50 "e" "Error" 0
          (⟨.HALF_OPEN, [⟨0, "e", 0, "Error"⟩], [], []⟩ : SCBState)).failures.length →
      (SmartCircuitBreaker.recordFailure ⟨2, 5, 10, 3, true⟩ 50 "e" "Error" 0
        (⟨.HALF_OPEN, [⟨0, "e", 0, "Error"⟩], [], []⟩ : SCBState)).state = .HALF_OPEN) ∧
    (SmartCircuitBreaker.recordFailure ⟨2, 5, 10, 3, true⟩ 50 "e" "Error" 0
        (⟨.HALF_OPEN, [⟨0, "e", 0, "Error"⟩], [], []⟩ : SCBState)).failures.getLast?.map
      SFailure.timestamp = some 50) :=
  ⟨⟨CircuitBreaker.Reaches.step _ 5 .succeeds
      (CircuitBreaker.Reaches.step _ 0 (.fails "e") CircuitBreaker.Reaches.start),
    by decide, rfl, by decide⟩,
    C5_halfopen_failure_reopens ⟨1, 5, 100, 3⟩ _ 6 "e" ⟨2, 5, 10, 3, true⟩
      ⟨.HALF_OPEN, [⟨0, "e", 0, "Error"⟩], [], []⟩ 50 "e" "Error" 0
      (CircuitBreaker.Reaches.step _ 5 .succeeds
        (CircuitBreaker.Reaches.step _ 0 (.fails "e") CircuitBreaker.Reaches.start))
      (by decide) rfl (by decide)⟩

/-- C5 counterexample: the claim as stated fails on `SmartCircuitBreaker`.
A threshold-2 breaker that opened on failures at t = 0 and t = 1
(window 10 ms, recovery timeout 5 ms) probes at t = 50: the probe moves it
to HALF_OPEN and the probe operation fails, but `recordFailure` prunes the
two old failures out of the monitoring window, leaving 1 < 2 in-window
failures — the breaker stays HALF_OPEN instead of transitioning to OPEN. -/
theorem C5_smart_halfopen_failure_stays_halfopen :
    ((SmartCircuitBreaker.execute ⟨2, 5, 10, 3, true⟩ 50 (.fails "e" "Error" 0)
        (SmartCircuitBreaker.execute ⟨2, 5, 10, 3, true⟩ 1 (.fails "e" "Error" 0)
          (SmartCircuitBreaker.execute ⟨2, 5, 10, 3, true⟩ 0 (.fails "e" "Error" 0)
            SmartCircuitBreaker.initial).newState).newState).newState.state = .HALF_OPEN) ∧
    ¬ ((SmartCircuitBreaker.execute ⟨2, 5, 10, 3, true⟩ 50 (.fails "e" "Error" 0)
        (SmartCircuitBreaker.execute ⟨2, 5, 10, 3, true⟩ 1 (.fails "e" "Error" 0)
          (SmartCircuitBreaker.execute ⟨2, 5, 10, 3, true⟩ 0 (.fails "e" "Error" 0)
            SmartCircuitBreaker.initial).newState).newState).newState.state = .OPEN) ∧
    ((SmartCircuitBreaker.execute ⟨2, 5, 10, 3, true⟩ 1 (.fails "e" "Error" 0)
        (SmartCircuitBreaker.execute ⟨2, 5, 10, 3, true⟩ 0 (.fails "e" "Error" 0)
          SmartCircuitBreaker.initial).newState).newState.state = .OPEN) := by
  refine ⟨?_, ?_, ?_⟩ <;> decide

/-- C2 counterexample: with `maxRetryAttempts = 2`, an operation that
always throws a `RangeError` — an error kind with no registered strategy,
the defaults included — is invoked exactly once, not twice: the failed
strategy lookup makes `attemptRecovery` report failure and the retry loop
breaks after the first attempt. -/
theorem C2_no_strategy_counterexample :
    (ErrorRecoverySystem.executeWithRecovery ⟨2, 100, 2, 10000, true⟩
        (ErrorRecoverySystem.defaultStrategies Unit)
        (fun _ => (Except.error ⟨"boom", "RangeError"⟩ : Except RErr Unit)) ()).invocations
      = 1 ∧
    ¬ (ErrorRecoverySystem.executeWithRecovery ⟨2, 100, 2, 10000, true⟩
        (ErrorRecoverySystem.defaultStrategies Unit)
        (fun _ => (Except.error ⟨"boom", "RangeError"⟩ : Except RErr Unit)) ()).invocations
      = 2 := by
  constructor <;> decide

/-- C2 (amended): when the failing error kind has no registered recovery
strategy, `executeWithRecovery` does not run the full retry/backoff loop —
`attemptRecovery` returns failure and the loop breaks, so for any
`maxRetryAttempts ≥ 1` (2 included) an always-failing operation is invoked
exactly once before the degraded result is returned. -/
theorem C2_no_strategy_single_attempt {V Ctx : Type} (cfg : ERConfig)
    (strats : Strategies Ctx) (e : RErr) (op : Nat → Except RErr V) (ctx : Ctx)
    (hmax : 1 ≤ cfg.maxRetryAttempts)
    (hop : ∀ n, op n = Except.error e)
    (hs : strats e.ctorName = none) :
    (ErrorRecoverySystem.executeWithRecovery cfg strats op ctx).invocations = 1 ∧
    ∃ d, (ErrorRecoverySystem.executeWithRecovery cfg strats op ctx).result = .degraded d ∧
      d.success = false ∧ d.mode = "degraded" := by
  obtain ⟨m, hm⟩ : ∃ m, cfg.maxRetryAttempts = m + 1 :=
    ⟨cfg.maxRetryAttempts - 1, by omega⟩
  have hr : (ErrorRecoverySystem.attemptRecovery strats e ctx).success = false := by
    unfold ErrorRecoverySystem.attemptRecovery
    rw [hs]
  unfold ErrorRecoverySystem.executeWithRecovery
  rw [hm]
  unfold ErrorRecoverySystem.executeWithRecoveryAux
  rw [hop 0]
  dsimp only
  by_cases h0 : 0 < m
  · rw [if_pos h0, if_neg (by rw [hr]; exact fun h => nomatch h)]
    exact ⟨rfl, _, rfl, rfl, rfl⟩
  · rw [if_neg h0]
    exact ⟨rfl, _, rfl, rfl, rfl⟩

/-- Witness for C2 (amended) at the concrete counterexample input. -/
theorem C2_no_strategy_single_attempt_witness :
    (1 ≤ (⟨2, 100, 2, 10000, true⟩ : ERConfig).maxRetryAttempts ∧
      (∀ n : Nat,
        (fun _ => (Except.error ⟨"boom", "RangeError"⟩ : Except RErr Unit)) n =
          Except.error ⟨"boom", "RangeError"⟩) ∧
      ErrorRecoverySystem.defaultStrategies Unit (RErr.ctorName ⟨"boom", "RangeError"⟩) = none) ∧
    ((ErrorRecoverySystem.executeWithRecovery ⟨2, 100, 2, 10000, true⟩
        (ErrorRecoverySystem.defaultStrategies Unit)
        (fun _ => (Except.error ⟨"boom", "RangeError"⟩ : Except RErr Unit)) ()).invocations
      = 1 ∧
    ∃ d, (ErrorRecoverySystem.executeWithRecovery ⟨2, 100, 2, 10000, true⟩
        (ErrorRecoverySystem.defaultStrategies Unit)
        (fun _ => (Except.error ⟨"boom", "RangeError"⟩ : Except RErr Unit)) ()).result
        = .degraded d ∧ d.success = false ∧ d.mode = "degraded") :=
  ⟨⟨by decide, fun _ => rfl, rfl⟩,
    C2_no_strategy_single_attempt ⟨2, 100, 2, 10000, true⟩
      (ErrorRecoverySystem.defaultStrategies Unit) ⟨"boom", "RangeError"⟩
      (fun _ => (Except.error ⟨"boom", "RangeError"⟩ : Except RErr Unit)) ()
      (by decide) (fun _ => rfl) rfl⟩

/-- C6: `calculateBackoffDelay attempt` equals
`min(retryDelay * backoffMultiplier ^ (attempt - 1), maxBackoffDelay)`;
for a multiplier ≥ 1 (and a nonnegative base delay) it is monotone
non-decreasing in the attempt number and bounded by `maxBackoffDelay`;
with `retryDelay = 100`, `multiplier = 2` (and the cap at least 400)
attempts 1, 2, 3 yield 100, 200, 400. -/
theorem C6_backoff_delay (cfg : ERConfig) (n m : Nat)
    (h1 : 1 ≤ n) (hnm : n ≤ m)
    (hmul : 1 ≤ cfg.backoffMultiplier) (hrd : 0 ≤ cfg.retryDelay) :
    ErrorRecoverySystem.calculateBackoffDelay cfg n =
      min (cfg.retryDelay * cfg.backoffMultiplier ^ (n - 1)) cfg.maxBackoffDelay ∧
    ErrorRecoverySystem.calculateBackoffDelay cfg n ≤
      ErrorRecoverySystem.calculateBackoffDelay cfg m ∧
    ErrorRecoverySystem.calculateBackoffDelay cfg n ≤ cfg.maxBackoffDelay ∧
    (cfg.retryDelay = 100 → cfg.backoffMultiplier = 2 → (400:ℚ) ≤ cfg.maxBackoffDelay →
      ErrorRecoverySystem.calculateBackoffDelay cfg 1 = 100 ∧
      ErrorRecoverySystem.calculateBackoffDelay cfg 2 = 200 ∧
      ErrorRecoverySystem.calculateBackoffDelay cfg 3 = 400) := by
  refine ⟨rfl, ?_, min_le_right _ _, ?_⟩
  · unfold ErrorRecoverySystem.calculateBackoffDelay
    refine min_le_min ?_ le_rfl
    refine mul_le_mul_of_nonneg_left ?_ hrd
    exact pow_le_pow_right₀ hmul (by omega)
  · intro hr hm hM
    unfold ErrorRecoverySystem.calculateBackoffDelay
    rw [hr, hm]
    refine ⟨?_, ?_, ?_⟩
    · show min ((100:ℚ) * 2 ^ (1 - 1)) cfg.maxBackoffDelay = 100
      rw [show (1:Nat) - 1 = 0 from rfl, pow_zero, mul_one]
      exact min_eq_left (le_trans (by norm_num) hM)
    · show min ((100:ℚ) * 2 ^ (2 - 1)) cfg.maxBackoffDelay = 200
      rw [show (2:Nat) - 1 = 1 from rfl, pow_one]
      rw [show (100:ℚ) * 2 = 200 by norm_num]
      exact min_eq_left (le_trans (by norm_num) hM)
    · show min ((100:ℚ) * 2 ^ (3 - 1)) cfg.maxBackoffDelay = 400
      rw [show (3:Nat) - 1 = 2 from rfl]
      rw [show (100:ℚ) * 2 ^ 2 = 400 by norm_num]
      exact min_eq_left hM

/-- Witness for C6 at the default-style configuration, attempts 2 ≤ 3. -/
theorem C6_backoff_delay_witness :
    (1 ≤ (2:Nat) ∧ (2:Nat) ≤ 3 ∧ (1:ℚ) ≤ (⟨3, 100, 2, 10000, true⟩ : ERConfig).backoffMultiplier ∧
      (0:ℚ) ≤ (⟨3, 100, 2, 10000, true⟩ : ERConfig).retryDelay) ∧
    (ErrorRecoverySystem.calculateBackoffDelay ⟨3, 100, 2, 10000, true⟩ 2 =
      min ((⟨3, 100, 2, 10000, true⟩ : ERConfig).retryDelay *
        (⟨3, 100, 2, 10000, true⟩ : ERConfig).backoffMultiplier ^ (2 - 1))
        (⟨3, 100, 2, 10000, true⟩ : ERConfig).maxBackoffDelay ∧
    ErrorRecoverySystem.calculateBackoffDelay ⟨3, 100, 2, 10000, true⟩ 2 ≤
      ErrorRecoverySystem.calculateBackoffDelay ⟨3, 100, 2, 10000, true⟩ 3 ∧
    ErrorRecoverySystem.calculateBackoffDelay ⟨3, 100, 2, 10000, true⟩ 2 ≤
      (⟨3, 100, 2, 10000, true⟩ : ERConfig).maxBackoffDelay ∧
    ((⟨3, 100, 2, 10000, true⟩ : ERConfig).retryDelay = 100 →
      (⟨3, 100, 2, 10000, true⟩ : ERConfig).backoffMultiplier = 2 →
      (400:ℚ) ≤ (⟨3, 100, 2, 10000, true⟩ : ERConfig).maxBackoffDelay →
      ErrorRecoverySystem.calculateBackoffDelay ⟨3, 100, 2, 10000, true⟩ 1 = 100 ∧
      ErrorRecoverySystem.calculateBackoffDelay ⟨3, 100, 2, 10000, true⟩ 2 = 200 ∧
      ErrorRecoverySystem.calculateBackoffDelay ⟨3, 100, 2, 10000, true⟩ 3 = 400)) :=
  ⟨⟨by decide, by decide, by decide, by decide⟩,
    C6_backoff_delay ⟨3, 100, 2, 10000, true⟩ 2 3 (by decide) (by decide)
      (by decide) (by decide)⟩

/-- Helper for C7: once inside the loop with at least one attempt left, an
always-failing operation always ends in the structured degraded result. -/
theorem ewrAux_always_fails {V Ctx : Type} (cfg : ERConfig) (strats : Strategies Ctx)
    (op : Nat → Except RErr V) (hfail : ∀ n, ∃ e, op n = Except.error e) :
    ∀ fuel attempt inv lastErr delays ctx, 1 ≤ fuel →
      ∃ d, (ErrorRecoverySystem.executeWithRecoveryAux cfg strats op
            fuel attempt inv lastErr delays ctx).result = .degraded d ∧
        d.success = false ∧ d.mode = "degraded" ∧ d.fallbackActive = true ∧
        d.error.isSome = true := by
  intro fuel
  induction fuel with
  | zero => intro _ _ _ _ _ h; omega
  | succ f ih =>
    intro attempt inv lastErr delays ctx _
    obtain ⟨e, he⟩ := hfail inv
    unfold ErrorRecoverySystem.executeWithRecoveryAux
    rw [he]
    dsimp only
    by_cases h0 : 0 < f
    · rw [if_pos h0]
      split
      · exact ih _ _ _ _ _ (by omega)
      · exact ⟨_, rfl, rfl, rfl, rfl, rfl⟩
    · rw [if_neg h0]
      exact ⟨_, rfl, rfl, rfl, rfl, rfl⟩

/-- C7: an operation that fails on every attempt makes
`executeWithRecovery` return (never throw) the structured degraded result
`{success: false, mode: "degraded", error, fallbackActive, context}` —
the final exception is absorbed into the `error` field. -/
theorem C7_exhaustion_returns_degraded {V Ctx : Type} (cfg : ERConfig)
    (strats : Strategies Ctx) (op : Nat → Except RErr V) (ctx : Ctx)
    (hmax : 1 ≤ cfg.maxRetryAttempts) (hfail : ∀ n, ∃ e, op n = Except.error e) :
    ∃ d, (ErrorRecoverySystem.executeWithRecovery cfg strats op ctx).result = .degraded d ∧
      d.success = false ∧ d.mode = "degraded" ∧ d.fallbackActive = true ∧
      d.error.isSome = true :=
  ewrAux_always_fails cfg strats op hfail cfg.maxRetryAttempts 0 0 none [] ctx hmax

/-- Witness for C7: a `TypeError`-throwing operation (whose kind has a
registered default strategy, so the loop really retries) under
`maxRetryAttempts = 3`. -/
theorem C7_exhaustion_returns_degraded_witness :
    (1 ≤ (⟨3, 100, 2, 10000, true⟩ : ERConfig).maxRetryAttempts ∧
      (∀ n : Nat, ∃ e, (fun _ => (Except.error ⟨"x", "TypeError"⟩ : Except RErr Unit)) n =
        Except.error e)) ∧
    (∃ d, (ErrorRecoverySystem.executeWithRecovery ⟨3, 100, 2, 10000, true⟩
        (ErrorRecoverySystem.defaultStrategies Unit)
        (fun _ => (Except.error ⟨"x", "TypeError"⟩ : Except RErr Unit)) ()).result
        = .degraded d ∧
      d.success = false ∧ d.mode = "degraded" ∧ d.fallbackActive = true ∧
      d.error.isSome = true) :=
  ⟨⟨by decide, fun _ => ⟨⟨"x", "TypeError"⟩, rfl⟩⟩,
    C7_exhaustion_returns_degraded ⟨3, 100, 2, 10000, true⟩
      (ErrorRecoverySystem.defaultStrategies Unit)
      (fun _ => (Except.error ⟨"x", "TypeError"⟩ : Except RErr Unit)) ()
      (by decide) (fun _ => ⟨⟨"x", "TypeError"⟩, rfl⟩)⟩

/-- C3 counterexample: a failed GPU strategy execution
(`processGeometry` returning null) and a failed Worker strategy execution
(a rejected worker promise, e.g. a timeout) both return a CPU-method
result — the dispatcher silently switched strategy inside the same call. -/
theorem C3_silent_fallback_counterexample :
    (UltraStableResizeSystemV2.processWithGPU (none : Option Nat) 7).method = .cpu ∧
    (UltraStableResizeSystemV2.processWithWorker
      (Except.error "Worker timeout" : Except String Nat) 7).method = .cpu ∧
    Method.cpu ≠ Method.gpu ∧ Method.cpu ≠ Method.worker :=
  ⟨rfl, rfl, by decide, by decide⟩

/-- C3 (amended): a failure of the selected GPU or Worker strategy causes
an immediate silent fallback to `processWithCPU` within the same call
(the result is exactly the CPU result); only when the selected strategy
succeeds does the result carry that strategy as its method. -/
theorem C3_strategy_failure_falls_back_to_cpu (D : Type) (g w cpuData : D) (e : String) :
    UltraStableResizeSystemV2.processWithGPU (none : Option D) cpuData =
      UltraStableResizeSystemV2.processWithCPU cpuData ∧
    UltraStableResizeSystemV2.processWithWorker (Except.error e : Except String D) cpuData =
      UltraStableResizeSystemV2.processWithCPU cpuData ∧
    (UltraStableResizeSystemV2.processWithGPU (some g) cpuData).method = .gpu ∧
    (UltraStableResizeSystemV2.processWithWorker (Except.ok w : Except String D) cpuData).method
      = .worker ∧
    (UltraStableResizeSystemV2.processWithCPU cpuData).method = .cpu :=
  ⟨rfl, rfl, rfl, rfl, rfl⟩

namespace WeakRefCache

theorem jsMapSet_length_le {K V : Type} [DecidableEq K] (l : List (K × V)) (k : K) (v : V) :
    (jsMapSet l k v).length ≤ l.length + 1 := by
  unfold jsMapSet
  split
  · rw [List.length_map]
    omega
  · rw [List.length_append]
    simp

theorem jsMapDelete_length_le {K V : Type} [DecidableEq K] (l : List (K × V)) (k : K) :
    (jsMapDelete l k).length ≤ l.length :=
  List.length_filter_le _ _

theorem jsMapDelete_cons_self_length {K V : Type} [DecidableEq K] (p : K × V)
    (rest : List (K × V)) :
    (jsMapDelete (p :: rest) p.1).length ≤ rest.length := by
  unfold jsMapDelete
  rw [List.filter_cons, if_neg (by simp)]
  exact List.length_filter_le _ _

theorem jsMapDelete_head {K V : Type} [DecidableEq K] (p : K × V) (rest : List (K × V))
    (hnd : ((p :: rest).map Prod.fst).Nodup) :
    jsMapDelete (p :: rest) p.1 = rest := by
  unfold jsMapDelete
  rw [List.filter_cons, if_neg (by simp)]
  rw [List.filter_eq_self]
  intro a ha
  simp only [decide_eq_true_eq]
  intro hak
  rw [List.map_cons, List.nodup_cons] at hnd
  exact hnd.1 (hak ▸ List.mem_map_of_mem Prod.fst ha)

theorem jsMapSet_append {K V : Type} [DecidableEq K] (l : List (K × V)) (k : K) (v : V)
    (h : k ∉ l.map Prod.fst) :
    jsMapSet l k v = l ++ [(k, v)] := by
  unfold jsMapSet
  rw [if_neg]
  simp only [List.any_eq_true, decide_eq_true_eq, not_exists, not_and]
  intro p hp hpk
  exact h (hpk ▸ List.mem_map_of_mem Prod.fst hp)

theorem jsMapSet_overwrite {K V : Type} [DecidableEq K] (l : List (K × V)) (k : K) (v : V)
    (h : k ∈ l.map Prod.fst) :
    jsMapSet l k v = l.map (fun p => if p.1 = k then (k, v) else p) := by
  unfold jsMapSet
  rw [if_pos]
  rw [List.any_eq_true]
  obtain ⟨p, hp, hpk⟩ := List.mem_map.mp h
  exact ⟨p, hp, by simpa using hpk⟩

theorem mem_keys_overwrite {K V : Type} [DecidableEq K] (l : List (K × V)) (k : K) (v : V)
    (h : k ∈ l.map Prod.fst) :
    k ∈ (l.map (fun p => if p.1 = k then (k, v) else p)).map Prod.fst := by
  obtain ⟨p, hp, hpk⟩ := List.mem_map.mp h
  rw [List.map_map]
  refine List.mem_map.mpr ⟨p, hp, ?_⟩
  simp [Function.comp, hpk]

theorem not_mem_keys_overwrite {K V : Type} [DecidableEq K] (l : List (K × V)) (k k0 : K)
    (v : V) (h0 : k0 ∉ l.map Prod.fst) (hne : k0 ≠ k) :
    k0 ∉ (l.map (fun p => if p.1 = k then (k, v) else p)).map Prod.fst := by
  rw [List.map_map]
  intro hmem
  obtain ⟨p, hp, hpk⟩ := List.mem_map.mp hmem
  simp only [Function.comp] at hpk
  by_cases hc : p.1 = k
  · rw [if_pos hc] at hpk
    exact hne hpk.symm
  · rw [if_neg hc] at hpk
    exact h0 (hpk ▸ List.mem_map_of_mem Prod.fst hp)

/-- A `set` on a full cache with a fresh key evicts exactly the oldest
entry: the result is the tail of the old list with the new entry appended. -/
theorem set_full_new_key {K V : Type} [DecidableEq K] (maxSize : Nat) (l : List (K × V))
    (k : K) (v : V) (hnd : (l.map Prod.fst).Nodup) (hfull : l.length = maxSize)
    (hnew : k ∉ l.map Prod.fst) (hms : 1 ≤ maxSize) :
    set maxSize l k v = l.tail ++ [(k, v)] := by
  unfold set
  dsimp only
  rw [if_pos (le_of_eq hfull.symm)]
  cases l with
  | nil => exact absurd hfull (by simp; omega)
  | cons p rest =>
    show jsMapSet (jsMapDelete (p :: rest) p.1) k v = rest ++ [(k, v)]
    rw [jsMapDelete_head p rest hnd]
    refine jsMapSet_append rest k v ?_
    intro hm
    exact hnew (by rw [List.map_cons]; exact List.mem_cons_of_mem _ hm)

/-- A `set` on a full cache with a key that is already present (and not
the oldest) still evicts the oldest entry and overwrites in place. -/
theorem set_full_existing_key {K V : Type} [DecidableEq K] (maxSize : Nat)
    (l : List (K × V)) (k k0 : K) (v : V)
    (hnd : (l.map Prod.fst).Nodup) (hfull : l.length = maxSize)
    (hmem : k ∈ l.map Prod.fst) (hfk : firstKey l = some k0) (hne : k ≠ k0) :
    (set maxSize l k v).length = maxSize - 1 ∧
    k0 ∉ (set maxSize l k v).map Prod.fst ∧
    k ∈ (set maxSize l k v).map Prod.fst := by
  cases l with
  | nil => exact absurd hfk (by simp [firstKey])
  | cons p rest =>
    have hp0 : p.1 = k0 := by
      unfold firstKey at hfk
      simpa using hfk
    have hkrest : k ∈ rest.map Prod.fst := by
      rw [List.map_cons] at hmem
      rcases List.mem_cons.mp hmem with h | h
      · exact absurd (h.trans hp0) hne
      · exact h
    have hk0rest : k0 ∉ rest.map Prod.fst := by
      rw [List.map_cons, List.nodup_cons] at hnd
      exact hp0 ▸ hnd.1
    have hset : set maxSize (p :: rest) k v =
        rest.map (fun q => if q.1 = k then (k, v) else q) := by
      unfold set
      dsimp only
      rw [if_pos (le_of_eq hfull.symm)]
      show jsMapSet (jsMapDelete (p :: rest) p.1) k v = _
      rw [jsMapDelete_head p rest hnd]
      exact jsMapSet_overwrite rest k v hkrest
    rw [hset]
    refine ⟨?_, ?_, ?_⟩
    · rw [List.length_map]
      rw [List.length_cons] at hfull
      omega
    · exact not_mem_keys_overwrite rest k k0 v hk0rest (fun h => hne h.symm)
    · exact mem_keys_overwrite rest k v hkrest

theorem applyOp_length {K V : Type} [DecidableEq K] (maxSize : Nat) (hms : 1 ≤ maxSize)
    (l : List (K × V)) (hl : l.length ≤ maxSize) (op : CacheOp K V) :
    (applyOp maxSize l op).length ≤ maxSize := by
  cases op with
  | set k v =>
    show (set maxSize l k v).length ≤ maxSize
    unfold set
    dsimp only
    split
    · rename_i hge
      cases l with
      | nil =>
        show (jsMapSet ([] : List (K × V)) k v).length ≤ maxSize
        unfold jsMapSet
        simpa using hms
      | cons p rest =>
        show (jsMapSet (jsMapDelete (p :: rest) p.1) k v).length ≤ maxSize
        have h1 := jsMapSet_length_le (jsMapDelete (p :: rest) p.1) k v
        have h2 := jsMapDelete_cons_self_length p rest
        have h3 : (p :: rest).length = rest.length + 1 := rfl
        omega
    · have h1 := jsMapSet_length_le l k v
      rename_i hlt
      omega
  | delete k => exact le_trans (jsMapDelete_length_le l k) hl
  | get k alive =>
    show (get l k alive).length ≤ maxSize
    unfold get
    split
    · exact hl
    · split
      · exact hl
      · exact le_trans (jsMapDelete_length_le l k) hl
  | cleanup alive => exact le_trans (List.length_filter_le _ _) hl

theorem applyOps_length {K V : Type} [DecidableEq K] (maxSize : Nat) (hms : 1 ≤ maxSize)
    (ops : List (CacheOp K V)) :
    (applyOps maxSize ops).length ≤ maxSize := by
  suffices h : ∀ l : List (K × V), l.length ≤ maxSize →
      (ops.foldl (applyOp maxSize) l).length ≤ maxSize by
    exact h [] (by simp)
  induction ops with
  | nil => intro l hl; exact hl
  | cons o ops ih =>
    intro l hl
    exact ih _ (applyOp_length maxSize hms l hl o)

end WeakRefCache

/-- C8: starting from an empty cache, no sequence of cache operations ever
pushes the entry count past the configured capacity; and a `set` that
would push a full cache beyond capacity evicts exactly one entry — the
oldest by insertion order — never more (the result is the old tail plus
the new entry, back at exactly `maxSize` entries). -/
theorem C8_capacity_and_single_eviction {K V : Type} [DecidableEq K] (maxSize : Nat)
    (ops : List (WeakRefCache.CacheOp K V)) (l : List (K × V)) (k : K) (v : V)
    (hms : 1 ≤ maxSize) :
    (WeakRefCache.applyOps maxSize ops).length ≤ maxSize ∧
    ((l.map Prod.fst).Nodup → l.length = maxSize → k ∉ l.map Prod.fst →
      WeakRefCache.set maxSize l k v = l.tail ++ [(k, v)] ∧
      (WeakRefCache.set maxSize l k v).length = maxSize) := by
  refine ⟨WeakRefCache.applyOps_length maxSize hms ops, fun hnd hfull hnew => ?_⟩
  have h := WeakRefCache.set_full_new_key maxSize l k v hnd hfull hnew hms
  refine ⟨h, ?_⟩
  rw [h, List.length_append]
  cases l with
  | nil => exact absurd hfull (by simp; omega)
  | cons p rest =>
    rw [List.length_cons] at hfull
    simp [List.length_tail]
    omega

/-- Witness for C8: capacity 2, three sets from empty, and a full cache
receiving a fresh key. -/
theorem C8_capacity_and_single_eviction_witness :
    (1 ≤ (2:Nat)) ∧
    ((WeakRefCache.applyOps (K := Nat) (V := Nat) 2
        [.set 1 10, .set 2 20, .set 3 30]).length ≤ 2 ∧
    ((([(1, 10), (2, 20)] : List (Nat × Nat)).map Prod.fst).Nodup →
      ([(1, 10), (2, 20)] : List (Nat × Nat)).length = 2 →
      (3:Nat) ∉ ([(1, 10), (2, 20)] : List (Nat × Nat)).map Prod.fst →
      WeakRefCache.set 2 ([(1, 10), (2, 20)] : List (Nat × Nat)) 3 30 =
        ([(1, 10), (2, 20)] : List (Nat × Nat)).tail ++ [(3, 30)] ∧
      (WeakRefCache.set 2 ([(1, 10), (2, 20)] : List (Nat × Nat)) 3 30).length = 2)) :=
  ⟨by decide, C8_capacity_and_single_eviction 2 [.set 1 10, .set 2 20, .set 3 30]
    [(1, 10), (2, 20)] 3 30 (by decide)⟩

/-- C10: on a cache at capacity, `set` with a key that is already present
(but not the oldest) still deletes the oldest entry before overwriting in
place, removing a different live entry and leaving the cache one entry
below capacity. -/
theorem C10_full_overwrite_evicts_oldest {K V : Type} [DecidableEq K] (maxSize : Nat)
    (l : List (K × V)) (k k0 : K) (v : V)
    (hnd : (l.map Prod.fst).Nodup) (hfull : l.length = maxSize)
    (hmem : k ∈ l.map Prod.fst) (hfk : WeakRefCache.firstKey l = some k0) (hne : k ≠ k0) :
    (WeakRefCache.set maxSize l k v).length = maxSize - 1 ∧
    k0 ∉ (WeakRefCache.set maxSize l k v).map Prod.fst ∧
    k ∈ (WeakRefCache.set maxSize l k v).map Prod.fst :=
  WeakRefCache.set_full_existing_key maxSize l k k0 v hnd hfull hmem hfk hne

/-- Witness for C10: capacity 2, overwriting key 2 in the full cache
`[(1, 10), (2, 20)]` evicts key 1 and leaves a single entry. -/
theorem C10_full_overwrite_evicts_oldest_witness :
    ((([(1, 10), (2, 20)] : List (Nat × Nat)).map Prod.fst).Nodup ∧
      ([(1, 10), (2, 20)] : List (Nat × Nat)).length = 2 ∧
      (2:Nat) ∈ ([(1, 10), (2, 20)] : List (Nat × Nat)).map Prod.fst ∧
      WeakRefCache.firstKey ([(1, 10), (2, 20)] : List (Nat × Nat)) = some 1 ∧
      (2:Nat) ≠ 1) ∧
    ((WeakRefCache.set 2 ([(1, 10), (2, 20)] : List (Nat × Nat)) 2 99).length = 2 - 1 ∧
    (1:Nat) ∉ (WeakRefCache.set 2 ([(1, 10), (2, 20)] : List (Nat × Nat)) 2 99).map Prod.fst ∧
    (2:Nat) ∈ (WeakRefCache.set 2 ([(1, 10), (2, 20)] : List (Nat × Nat)) 2 99).map Prod.fst) :=
  ⟨⟨by decide, by decide, by decide, by decide, by decide⟩,
    C10_full_overwrite_evicts_oldest 2 [(1, 10), (2, 20)] 2 1 99
      (by decide) (by decide) (by decide) (by decide) (by decide)⟩

/-- C9 counterexample, both halves of the claim. (a) `shouldProcessFrame`
with skip-probability 3/10 and draw 8/10: the draw exceeds the
skip-probability, yet the frame is skipped — the check proceeds iff
`r ≤ 1 - p`, not iff `r > p`. (b) `shouldProcessResize` with
skip-probability 0 and draw 0 (a possible `Math.random()` value) returns
false, so permit does not return true for every draw in [0, 1). -/
theorem C9_permit_counterexample :
    ((3:ℚ)/10 < 8/10 ∧
      (PerformanceOptimizer.shouldProcessFrame ⟨3/10, 16, false, true, true, true⟩
        ⟨⟨0, 0, 60⟩, 0, [], 1⟩ 0 (8/10)).2 = false) ∧
    ((0:ℚ) ≤ 0 ∧ UltraStableResizeSystemV2.shouldProcessResize 0 0 = false) := by
  refine ⟨⟨by norm_num, ?_⟩, by norm_num, rfl⟩
  norm_num [PerformanceOptimizer.shouldProcessFrame, PerformanceOptimizer.calculateAdaptiveThrottling]

/-- C9 (amended): `shouldProcessResize` proceeds iff the uniform draw `r`
strictly exceeds the skip-probability `p` — so with `p = 0` it proceeds
for every draw `r > 0` but returns false on the draw `r = 0`; the
`shouldProcessFrame` permit check instead proceeds iff `r ≤ 1 - p`
(with adaptive throttling off, `p` is the configured `throttleRate`),
so with `p = 0` it proceeds for every possible draw. -/
theorem C9_permit_checks (p r : ℚ) (cfg : POConfig) (st : POState) (now rr : ℚ)
    (had : cfg.adaptiveThrottling = false) :
    (UltraStableResizeSystemV2.shouldProcessResize p r = true ↔ p < r) ∧
    ((PerformanceOptimizer.shouldProcessFrame cfg st now rr).2 = true ↔
      rr ≤ 1 - cfg.throttleRate) ∧
    (0 < r → UltraStableResizeSystemV2.shouldProcessResize 0 r = true) ∧
    UltraStableResizeSystemV2.shouldProcessResize 0 0 = false := by
  refine ⟨by simp [UltraStableResizeSystemV2.shouldProcessResize], ?_,
    fun h => by simpa [UltraStableResizeSystemV2.shouldProcessResize] using h, rfl⟩
  unfold PerformanceOptimizer.shouldProcessFrame
  dsimp only
  rw [had]
  simp only [Bool.false_eq_true, if_false]
  split
  · rename_i hlt
    simp only [Bool.false_eq_true, false_iff, not_le]
    exact hlt
  · rename_i hge
    simp only [true_iff]
    exact le_of_not_lt hge

/-- Witness for C9 (amended) at skip-probability 1/2, resize draw 3/4,
frame draw 1/2, adaptive throttling off. -/
theorem C9_permit_checks_witness :
    ((⟨1/2, 16, false, true, true, true⟩ : POConfig).adaptiveThrottling = false) ∧
    ((UltraStableResizeSystemV2.shouldProcessResize (1/2) (3/4) = true ↔ (1:ℚ)/2 < 3/4) ∧
    ((PerformanceOptimizer.shouldProcessFrame ⟨1/2, 16, false, true, true, true⟩
        ⟨⟨0, 0, 60⟩, 0, [], 1⟩ 0 (1/2)).2 = true ↔
      (1:ℚ)/2 ≤ 1 - (⟨1/2, 16, false, true, true, true⟩ : POConfig).throttleRate) ∧
    ((0:ℚ) < 3/4 → UltraStableResizeSystemV2.shouldProcessResize 0 (3/4) = true) ∧
    UltraStableResizeSystemV2.shouldProcessResize 0 0 = false) :=
  ⟨rfl, C9_permit_checks (1/2) (3/4) ⟨1/2, 16, false, true, true, true⟩
    ⟨⟨0, 0, 60⟩, 0, [], 1⟩ 0 (1/2) rfl⟩

/-- Witness for C3 at a concrete payload type. -/
theorem C3_strategy_failure_falls_back_to_cpu_witness :
    UltraStableResizeSystemV2.processWithGPU (none : Option Nat) 7 =
      UltraStableResizeSystemV2.processWithCPU 7 ∧
    UltraStableResizeSystemV2.processWithWorker
        (Except.error "Worker timeout" : Except String Nat) 7 =
      UltraStableResizeSystemV2.processWithCPU 7 ∧
    (UltraStableResizeSystemV2.processWithGPU (some 5) 7).method = .gpu ∧
    (UltraStableResizeSystemV2.processWithWorker (Except.ok 5 : Except String Nat) 7).method
      = .worker ∧
    (UltraStableResizeSystemV2.processWithCPU (7 : Nat)).method = .cpu :=
  C3_strategy_failure_falls_back_to_cpu Nat 5 5 7 "Worker timeout"

/-- Witness for C4 at a concrete OPEN breaker holding two failures. -/
theorem C4_cancellation_not_counted_witness :
    (SmartCircuitBreaker.execute ⟨2, 5, 10, 3, true⟩ 7 .cancelled
      (⟨.OPEN, [⟨0, "e", 0, "Error"⟩, ⟨1, "e", 0, "Error"⟩], [], []⟩ : SCBState)).recordedFailure
      = false ∧
    (SmartCircuitBreaker.execute ⟨2, 5, 10, 3, true⟩ 7 .cancelled
      (⟨.OPEN, [⟨0, "e", 0, "Error"⟩, ⟨1, "e", 0, "Error"⟩], [], []⟩ : SCBState)).recordedSuccess
      = false ∧
    (SmartCircuitBreaker.execute ⟨2, 5, 10, 3, true⟩ 7 .cancelled
      (⟨.OPEN, [⟨0, "e", 0, "Error"⟩, ⟨1, "e", 0, "Error"⟩], [], []⟩ : SCBState)).newState.failures
      = [⟨0, "e", 0, "Error"⟩, ⟨1, "e", 0, "Error"⟩] ∧
    (SmartCircuitBreaker.execute ⟨2, 5, 10, 3, true⟩ 7 .cancelled
      (⟨.OPEN, [⟨0, "e", 0, "Error"⟩, ⟨1, "e", 0, "Error"⟩], [], []⟩ : SCBState)).newState.successes
      = [] :=
  C4_cancellation_not_counted ⟨2, 5, 10, 3, true⟩ 7
    ⟨.OPEN, [⟨0, "e", 0, "Error"⟩, ⟨1, "e", 0, "Error"⟩], [], []⟩
